import Mathlib

/-!
Verification of the scheduling and state-persistence engine of the
`pv_heating_manager` repository, embedded shallowly from
`src/heating_manager.go` (the primary source file; the repository also
carries two other evolutionary copies of the same program, one embedded
after the test file and one under `src/unnamed/part_000`).

Times are modelled as Go `time.Time` values: a count of whole seconds since
the epoch plus a nanosecond part.  File contents are modelled as the list of
bytes written (`os.WriteFile` takes `[]byte`).  HTTP results are modelled as
an explicit outcome type (network error, or a response carrying a status
code and a body).  Temperatures are modelled as rationals: the claims under
study are about control flow around the comparison `temperature > threshold`,
not about floating-point rounding.
-/

/-- `Config` from src/heating_manager.go lines 14-18: sensor URL, actuator
URL and the temperature threshold in Celsius. -/
structure Config where
  shellyURL : String
  shellyHeatingOnURL : String
  temperatureThreshold : ℚ
  deriving Repr, DecidableEq

/-- `HeatingManager` from src/heating_manager.go lines 21-26.
`checkInterval` is a Go `time.Duration`, i.e. a count of nanoseconds. -/
structure HeatingManager where
  config : Config
  temperatureExceeded : Bool
  checkInterval : Int
  lastCheckFile : String
  deriving Repr, DecidableEq

/-- A Go `time.Time`: whole seconds since the epoch (possibly negative)
plus a nanosecond part. -/
structure GoTime where
  sec : Int
  nsec : Nat
  deriving Repr, DecidableEq

/-- A `time.Time` as a count of nanoseconds, the resolution at which Go
compares times (`Time.After`) and subtracts them (`Time.Sub`). -/
def GoTime.toNs (t : GoTime) : Int :=
  t.sec * 1000000000 + (t.nsec : Int)

/-- The little-endian base-10 digits of a natural number (empty for 0). -/
def natDigits (n : Nat) : List Nat :=
  if h : n = 0 then [] else (n % 10) :: natDigits (n / 10)
  decreasing_by exact Nat.div_lt_self (Nat.pos_of_ne_zero h) (by omega)

/-- Reassemble a natural number from little-endian base-10 digits. -/
def ofDigits : List Nat → Nat
  | [] => 0
  | d :: ds => d + 10 * ofDigits ds

/-- The textual timestamp `time.Now().Format(time.RFC3339)` written by
`saveLastCheckTime` (src/heating_manager.go line 156), modelled at the level
relevant to the checkpoint contract: the RFC3339 text of a time carries its
whole-second instant exactly (the format has no fractional-second field, so
the nanosecond part is dropped) and nothing else.  We model the text as a
sign byte followed by the decimal digits of the magnitude of the second
count. -/
def formatRFC3339 (t : GoTime) : List Nat :=
  (if t.sec < 0 then 1 else 0) :: natDigits t.sec.natAbs

/-- `time.Parse(time.RFC3339, string(data))` from `readLastCheckTime`
(src/heating_manager.go line 182): recover the whole-second instant from the
checkpoint text, or fail on malformed contents.  A parsed time has
nanosecond part 0, since the format carries none. -/
def parseRFC3339 : List Nat → Option GoTime
  | [] => none
  | s :: rest =>
    if s ≤ 1 && rest.all (fun d => d < 10) then
      some ⟨if s = 1 then -(ofDigits rest : Int) else (ofDigits rest : Int), 0⟩
    else none

/-- The checkpoint file on disk: `none` when absent, otherwise its bytes. -/
abbrev CheckFile := Option (List Nat)

/-- `readLastCheckTime` from src/heating_manager.go lines 176-188:
a read error (absent file) or a parse error yields `Except.error`. -/
def readLastCheckTime (file : CheckFile) : Except String GoTime :=
  match file with
  | none => .error "failed to read last check time"
  | some data =>
    match parseRFC3339 data with
    | none => .error "failed to parse last check time"
    | some lastCheck => .ok lastCheck

/-- `saveLastCheckTime` from src/heating_manager.go lines 154-160: write
`now` formatted as RFC3339 over the checkpoint file.  `writeOk` models
whether `os.WriteFile` succeeds; on failure the error is only logged and the
previous file state persists. -/
def saveLastCheckTime (file : CheckFile) (now : GoTime) (writeOk : Bool) :
    CheckFile :=
  if writeOk then some (formatRFC3339 now) else file

/-- `7 * 24 * time.Hour` in nanoseconds (src/heating_manager.go line 168). -/
def weeklyIntervalNs : Int := 7 * 24 * 60 * 60 * 1000000000

/-- `nextWeeklyCheckDuration` from src/heating_manager.go lines 163-173:
duration (in nanoseconds) until the next weekly check, computed from the
persisted checkpoint and the current time `now`. -/
def nextWeeklyCheckDuration (now : GoTime) (file : CheckFile) : Int :=
  match readLastCheckTime file with
  | .error _ => 0
  | .ok lastCheck =>
    let nextCheck := lastCheck.toNs + weeklyIntervalNs
    if now.toNs > nextCheck then 0 else nextCheck - now.toNs

/-- The outcome of one `http.Get` against the sensor.  `response` carries
the status code and the result of reading and float-parsing the body
(`fmt.Fscan` + `strconv.ParseFloat`, src/heating_manager.go lines 112-121):
`none` when scanning or parsing fails, `some q` for a body that parses to
the temperature `q`. -/
inductive HttpResult where
  | netError (msg : String)
  | response (statusCode : Nat) (body : Option ℚ)
  deriving Repr, DecidableEq

/-- `getTemperature` from src/heating_manager.go lines 101-124. -/
def getTemperature (resp : HttpResult) : Except String ℚ :=
  match resp with
  | .netError msg => .error ("failed to get temperature: " ++ msg)
  | .response statusCode body =>
    if statusCode ≠ 200 then .error "failed to get temperature: bad status code"
    else
      match body with
      | none => .error "failed to read or parse temperature"
      | some temperature => .ok temperature

/-- Whether an `Except` is the success case. -/
def exceptOk {ε α : Type} : Except ε α → Bool
  | .ok _ => true
  | .error _ => false

/-- `checkTemperature` from src/heating_manager.go lines 84-98: one poll.
On a fetch error the poll returns with no state change; on success the flag
is set when `temperature > threshold`, and — in this copy of the source —
reset to `false` otherwise (the `else` branch at line 96). -/
def checkTemperature (hm : HeatingManager) (resp : HttpResult) :
    HeatingManager :=
  match getTemperature resp with
  | .error _ => hm
  | .ok temperature =>
    if temperature > hm.config.temperatureThreshold then
      { hm with temperatureExceeded := true }
    else
      { hm with temperatureExceeded := false }

/-- `checkTemperature` as it appears in the repository's other copy of the
program (the source embedded after src/heating_manager_test.go, lines
153-166 there, and likewise src/unnamed/part_000 lines 44-57): the `else`
branch only logs, leaving the flag unchanged — the sticky behaviour the
spec describes. -/
def checkTemperatureOtherCopy (hm : HeatingManager) (resp : HttpResult) :
    HeatingManager :=
  match getTemperature resp with
  | .error _ => hm
  | .ok temperature =>
    if temperature > hm.config.temperatureThreshold then
      { hm with temperatureExceeded := true }
    else
      hm

/-- The monitoring loop `StartTemperatureMonitoring`
(src/heating_manager.go lines 43-50) over a finite prefix of ticks: each
tick runs one poll with that tick's fetch outcome. -/
def monitorRun (hm : HeatingManager) : List HttpResult → HeatingManager
  | [] => hm
  | resp :: rest => monitorRun (checkTemperature hm resp) rest

/-- The outcome of the `http.Get` against the actuator. -/
inductive ActuatorResult where
  | netError (msg : String)
  | response (statusCode : Nat)
  deriving Repr, DecidableEq

/-- `turnShellyOn` from src/heating_manager.go lines 138-151. -/
def turnShellyOn (resp : ActuatorResult) : Except String Unit :=
  match resp with
  | .netError msg => .error ("failed to turn on Shelly: " ++ msg)
  | .response statusCode =>
    if statusCode ≠ 200 then .error "failed to turn on Shelly: bad status code"
    else .ok ()

/-- Observable actions of one weekly cycle, in order: an invocation of the
actuator trigger (carrying its outcome) or a checkpoint save attempt. -/
inductive Event where
  | trigger (result : Except String Unit)
  | save
  deriving Repr

/-- Whether an event is an actuator-trigger invocation. -/
def Event.isTrigger : Event → Bool
  | .trigger _ => true
  | .save => false

/-- Whether an event is a checkpoint save attempt. -/
def Event.isSave : Event → Bool
  | .trigger _ => false
  | .save => true

/-- The result of one weekly cycle: the manager state after the cycle, the
checkpoint file after the cycle, and the ordered list of observable
actions. -/
structure WeeklyResult where
  manager : HeatingManager
  file : CheckFile
  events : List Event
  deriving Repr

/-- `weeklyCheck` from src/heating_manager.go lines 127-135: when the flag
is not set, invoke the actuator trigger (an error is only logged); then
unconditionally reset the flag and save the checkpoint.  `actuatorResp` is
the HTTP outcome the trigger would see, `now` and `writeOk` feed the save. -/
def weeklyCheck (hm : HeatingManager) (actuatorResp : ActuatorResult)
    (now : GoTime) (file : CheckFile) (writeOk : Bool) : WeeklyResult :=
  let triggerEvents :=
    if !hm.temperatureExceeded then [Event.trigger (turnShellyOn actuatorResp)]
    else []
  { manager := { hm with temperatureExceeded := false }
    file := saveLastCheckTime file now writeOk
    events := triggerEvents ++ [Event.save] }

/-- The fields of a JSON object decoded into `Config`: `encoding/json`
leaves a missing field at its zero value instead of failing, so each field
is optional here and `decodeConfig` fills the Go zero values in. -/
structure ConfigFileData where
  shellyURL : Option String
  shellyHeatingOnURL : Option String
  temperatureThreshold : Option ℚ
  deriving Repr, DecidableEq

/-- `json.NewDecoder(configFile).Decode(&config)` on a syntactically valid
JSON object (src/heating_manager.go line 75): absent fields become Go zero
values. -/
def decodeConfig (d : ConfigFileData) : Config :=
  { shellyURL := d.shellyURL.getD ""
    shellyHeatingOnURL := d.shellyHeatingOnURL.getD ""
    temperatureThreshold := d.temperatureThreshold.getD 0 }

/-- The state of `config.json` as `loadConfig` can observe it. -/
inductive ConfigFile where
  | absent
  | unparseable
  | parsed (d : ConfigFileData)
  deriving Repr, DecidableEq

/-- `loadConfig` from src/heating_manager.go lines 67-81: error when the
file cannot be opened or is not valid JSON; otherwise the decoded config. -/
def loadConfig (cf : ConfigFile) : Except String Config :=
  match cf with
  | .absent => .error "failed to open config file"
  | .unparseable => .error "failed to parse config file"
  | .parsed d => .ok (decodeConfig d)

/-- `NewHeatingManager` from src/heating_manager.go lines 29-40: propagate
a config-load error, otherwise construct the manager with the hardcoded
5-minute check interval and checkpoint file name. -/
def NewHeatingManager (cf : ConfigFile) : Except String HeatingManager :=
  match loadConfig cf with
  | .error e => .error e
  | .ok config =>
    .ok { config := config
          temperatureExceeded := false
          checkInterval := 5 * 60 * 1000000000
          lastCheckFile := "lastCheck.txt" }

/-!
Interleaving model for the shared `TemperatureExceeded` flag.

`HeatingManager` has no mutex and the program uses no `sync` or
`sync/atomic` primitive: `checkTemperature` (goroutine started at
src/unnamed/part_000 line 160) writes the plain `bool` field while
`weeklyCheck` (goroutine started at line 163) reads it at
src/heating_manager.go line 128 and writes `false` at line 133.  We model
the individual accesses as atomic steps of a sequentially consistent
interleaving — the most favourable memory model an unsynchronized Go
program could hope for — and interleave one over-threshold poll's write
with the scheduler's read-then-reset.
-/

/-- The shared flag together with the scheduler's local view: `decision`
records, once the scheduler has read the flag, whether this cycle will
invoke the actuator trigger (`some true` when the read saw the flag
clear). -/
structure RaceState where
  flag : Bool
  decision : Option Bool
  deriving Repr, DecidableEq

/-- One atomic access to the shared flag: the monitor's over-threshold
write (src/heating_manager.go line 93), the scheduler's read (line 128), or
the scheduler's unconditional reset (line 133). -/
inductive RaceAct where
  | monitorSet
  | schedulerRead
  | schedulerReset
  deriving Repr, DecidableEq

/-- Effect of one atomic access on the shared flag. -/
def raceStep (s : RaceState) : RaceAct → RaceState
  | .monitorSet => { s with flag := true }
  | .schedulerRead => { s with decision := some (!s.flag) }
  | .schedulerReset => { s with flag := false }

/-- Run a schedule of interleaved accesses from a starting state. -/
def raceRun (s : RaceState) : List RaceAct → RaceState
  | [] => s
  | a :: rest => raceRun (raceStep s a) rest

-- Round-trip lemmas for the checkpoint text.

theorem ofDigits_natDigits (n : Nat) : ofDigits (natDigits n) = n := by
  induction n using Nat.strong_induction_on with
  | _ n ih =>
    rw [natDigits]
    split
    · simp [ofDigits]; omega
    · rename_i h
      rw [ofDigits, ih (n / 10) (Nat.div_lt_self (Nat.pos_of_ne_zero h) (by omega))]
      omega

theorem natDigits_all_lt (n : Nat) : (natDigits n).all (fun d => d < 10) = true := by
  induction n using Nat.strong_induction_on with
  | _ n ih =>
    rw [natDigits]
    split
    · simp
    · rename_i h
      rw [List.all_cons, ih (n / 10) (Nat.div_lt_self (Nat.pos_of_ne_zero h) (by omega))]
      simp
      omega

theorem parseRFC3339_formatRFC3339 (t : GoTime) :
    parseRFC3339 (formatRFC3339 t) = some ⟨t.sec, 0⟩ := by
  rcases lt_or_le t.sec 0 with h | h
  · simp [formatRFC3339, parseRFC3339, h, natDigits_all_lt, ofDigits_natDigits,
      abs_of_neg h]
  · simp [formatRFC3339, parseRFC3339, not_lt.mpr h, natDigits_all_lt,
      ofDigits_natDigits]
    omega

/-- A concrete manager for witnesses: threshold 55 °C, flag currently set. -/
def managerA : HeatingManager :=
  { config := { shellyURL := "http://sensor"
                shellyHeatingOnURL := "http://heat"
                temperatureThreshold := 55 }
    temperatureExceeded := true
    checkInterval := 5 * 60 * 1000000000
    lastCheckFile := "lastCheck.txt" }

/-- C1: evaluation of the poll at the failing input.  `managerA` has the
exceeded flag set; a successful read returns 20 °C, below the 55 °C
threshold.  The claim requires the flag to remain `true` (prior OR
`t > threshold`), but `checkTemperature`'s `else` branch
(src/heating_manager.go line 96) clears it to `false`. -/
theorem checkTemperature_clears_flag_on_ok_reading :
    managerA.temperatureExceeded = true ∧
    exceptOk (getTemperature (.response 200 (some 20))) = true ∧
    (checkTemperature managerA (.response 200 (some 20))).temperatureExceeded
      = false := by
  refine ⟨rfl, rfl, ?_⟩
  decide

/-- The repository's other two copies of `checkTemperature` (the source
embedded after src/heating_manager_test.go, and src/unnamed/part_000)
satisfy the sticky law the claim states: after a successful reading `q` the
flag equals prior OR `q > threshold`. -/
theorem checkTemperatureOtherCopy_sticky (hm : HeatingManager) (q : ℚ) :
    (checkTemperatureOtherCopy hm (.response 200 (some q))).temperatureExceeded
      = (hm.temperatureExceeded || decide (q > hm.config.temperatureThreshold)) := by
  by_cases h : q > hm.config.temperatureThreshold <;>
    simp [checkTemperatureOtherCopy, getTemperature, h]

/-- C2: `nextWeeklyCheckDuration` returns 0 when the checkpoint file is
absent, when its contents do not parse, and when
`now ≥ checkpoint + weeklyInterval`; otherwise it returns exactly
`(checkpoint + weeklyInterval) - now`. -/
theorem nextWeeklyCheckDuration_spec (now : GoTime) (file : CheckFile) :
    nextWeeklyCheckDuration now file =
      match file with
      | none => 0
      | some data =>
        match parseRFC3339 data with
        | none => 0
        | some checkpoint =>
          if checkpoint.toNs + weeklyIntervalNs ≤ now.toNs then 0
          else checkpoint.toNs + weeklyIntervalNs - now.toNs := by
  cases file with
  | none => rfl
  | some data =>
    cases hp : parseRFC3339 data with
    | none => simp [nextWeeklyCheckDuration, readLastCheckTime, hp]
    | some checkpoint =>
      simp only [nextWeeklyCheckDuration, readLastCheckTime, hp]
      by_cases h : now.toNs > checkpoint.toNs + weeklyIntervalNs
      · rw [if_pos h, if_pos (le_of_lt h)]
      · rw [if_neg h]
        by_cases h2 : checkpoint.toNs + weeklyIntervalNs ≤ now.toNs
        · rw [if_pos h2]; omega
        · rw [if_neg h2]

/-- C3: one weekly cycle invokes the actuator trigger exactly once when the
exceeded flag is clear on entry, and zero times when it is set — whatever
the trigger outcome, the time, the file state and the write outcome. -/
theorem weeklyCheck_trigger_count (hm : HeatingManager)
    (actuatorResp : ActuatorResult) (now : GoTime) (file : CheckFile)
    (writeOk : Bool) :
    ((weeklyCheck hm actuatorResp now file writeOk).events.countP
        Event.isTrigger) =
      if hm.temperatureExceeded then 0 else 1 := by
  cases h : hm.temperatureExceeded <;>
    simp [weeklyCheck, h, Event.isTrigger, List.countP_cons, List.countP_nil]

/-- C4: the exceeded flag is `false` after every completed weekly cycle,
for every entry value of the flag and every trigger and write outcome. -/
theorem weeklyCheck_clears_flag (hm : HeatingManager)
    (actuatorResp : ActuatorResult) (now : GoTime) (file : CheckFile)
    (writeOk : Bool) :
    (weeklyCheck hm actuatorResp now file writeOk).manager.temperatureExceeded
      = false := rfl

/-- C5: every weekly cycle attempts the checkpoint save exactly once, as
its last action — after the conditional trigger attempt, whether or not the
trigger was attempted and however it came out. -/
theorem weeklyCheck_saves_once_last (hm : HeatingManager)
    (actuatorResp : ActuatorResult) (now : GoTime) (file : CheckFile)
    (writeOk : Bool) :
    ((weeklyCheck hm actuatorResp now file writeOk).events.countP Event.isSave
        = 1) ∧
    ((weeklyCheck hm actuatorResp now file writeOk).events.getLast?
        = some Event.save) := by
  cases h : hm.temperatureExceeded <;>
    simp [weeklyCheck, h, Event.isSave, List.countP_cons, List.countP_nil]

/-- C6: saving a timestamp and loading it back yields the same instant at
whole-second granularity: the second count survives exactly and the
nanosecond part is dropped (the RFC3339 text has no sub-second field). -/
theorem checkpoint_roundtrip (file : CheckFile) (now : GoTime) :
    readLastCheckTime (saveLastCheckTime file now true) =
      .ok ⟨now.sec, 0⟩ := by
  simp [saveLastCheckTime, readLastCheckTime, parseRFC3339_formatRFC3339]

/-- C7: on any failed fetch (network error, bad status, unparseable body)
the poll returns with the manager unchanged, and the monitoring loop simply
continues with the remaining ticks. -/
theorem checkTemperature_failure_skips (hm : HeatingManager)
    (resp : HttpResult) (rest : List HttpResult)
    (h : exceptOk (getTemperature resp) = false) :
    checkTemperature hm resp = hm ∧
    monitorRun hm (resp :: rest) = monitorRun hm rest := by
  have hskip : checkTemperature hm resp = hm := by
    cases hg : getTemperature resp with
    | error e => simp [checkTemperature, hg]
    | ok q => rw [hg] at h; simp [exceptOk] at h
  exact ⟨hskip, by rw [monitorRun, hskip]⟩

/-- Witness for C7 at a concrete failing fetch. -/
theorem checkTemperature_failure_skips_witness :
    exceptOk (getTemperature (.netError "connection refused")) = false ∧
    (checkTemperature managerA (.netError "connection refused") = managerA ∧
     monitorRun managerA [.netError "connection refused"]
        = monitorRun managerA []) :=
  ⟨rfl, checkTemperature_failure_skips managerA (.netError "connection refused")
    [] rfl⟩

/-- C8 counterexample: a syntactically valid `config.json` with every field
missing is accepted by `NewHeatingManager` — the claim that a configuration
with missing fields is never accepted is false.  (No interval is
configurable in this file at all: the 5-minute and 7-day intervals are
hardcoded, so no positivity check exists either.) -/
theorem NewHeatingManager_accepts_empty_config :
    exceptOk (NewHeatingManager (.parsed ⟨none, none, none⟩)) = true := rfl

/-- C8 amended: startup fails exactly when `config.json` is absent or not
valid JSON; every decoded configuration is accepted, with missing fields
filled by Go zero values and no validation of any field. -/
theorem NewHeatingManager_error_iff (cf : ConfigFile) :
    exceptOk (NewHeatingManager cf) = false ↔
      (cf = .absent ∨ cf = .unparseable) := by
  cases cf <;> simp [NewHeatingManager, loadConfig, exceptOk]

/-- C9: evaluation at the failing interleaving.  Starting with the flag
clear, the schedule read – set – reset (scheduler reads the flag and decides
to trigger, the monitor sets the flag on an over-threshold poll, the
scheduler unconditionally resets it) ends with the flag `false` even though
the set happened before the reset: the excursion is silently lost and no
cycle ever withholds heating for it.  Nothing in the code prevents this
interleaving — `TemperatureExceeded` is a plain `bool` with no mutex or
atomic access. -/
theorem exceeded_set_lost :
    raceRun ⟨false, none⟩
        [.schedulerRead, .monitorSet, .schedulerReset] =
      ⟨false, some true⟩ := rfl

/-- C10: a weekly cycle mutates no in-memory field but the exceeded flag:
config, check interval and checkpoint file name are untouched, whatever the
entry state and the trigger and write outcomes. -/
theorem weeklyCheck_frame (hm : HeatingManager)
    (actuatorResp : ActuatorResult) (now : GoTime) (file : CheckFile)
    (writeOk : Bool) :
    (weeklyCheck hm actuatorResp now file writeOk).manager.config = hm.config ∧
    (weeklyCheck hm actuatorResp now file writeOk).manager.checkInterval
        = hm.checkInterval ∧
    (weeklyCheck hm actuatorResp now file writeOk).manager.lastCheckFile
        = hm.lastCheckFile :=
  ⟨rfl, rfl, rfl⟩
